import Mathlib

/-
Verification of the core subsystems of the wandb experiment-tracking client:
the artifact engine (manifest digests, cache addressing, storage handlers),
the tensorboard event pipeline (filename filter, history step accounting),
and the sweep agent (flap protection, two-stage stop).

Each definition is a shallow embedding of the corresponding Python function;
file names and line references point into the repository sources.
External collaborators (hashlib, the filesystem, cloud SDKs, the clock and
the environment) are passed in explicitly as parameters, as the spec directs.
-/

/- ---------------------------------------------------------------------
   Section 1: the manifest digest
   (src/wandb/sdk/wandb_artifacts.py, class ArtifactManifestV1)
   --------------------------------------------------------------------- -/

/-- One line of the digest preimage: `"{name}:{entry.digest}\n"`
(wandb_artifacts.py line 328).  An entry is reduced to the pair
(path, digest) because `digest()` reads nothing else. -/
def manifestLine (kv : String × String) : String :=
  kv.1 ++ ":" ++ kv.2 ++ "\n"

/-- `sorted(self.entries.items(), key=lambda kv: kv[0])`
(wandb_artifacts.py line 327): a stable sort of the (path, digest)
pairs by path.  Lean string order is code-point lexicographic, exactly
like the Python comparison used by `sorted`. -/
def sortedEntries (l : List (String × String)) : List (String × String) :=
  l.insertionSort (fun a b => a.1 ≤ b.1)

/-- `ArtifactManifestV1.digest` (wandb_artifacts.py lines 324-329):
MD5 hex of `"wandb-artifact-manifest-v1\n"` followed by one line per
entry in ascending path order.  `md5hex` stands for the external
`hashlib.md5(...).hexdigest()` pipeline applied to the accumulated
string. -/
def ArtifactManifestV1.digest (md5hex : String → String)
    (entries : List (String × String)) : String :=
  md5hex ("wandb-artifact-manifest-v1\n"
    ++ String.join ((sortedEntries entries).map manifestLine))

instance : IsTotal (String × String) (fun a b => a.1 ≤ b.1) :=
  ⟨fun a b => le_total a.1 b.1⟩

instance : IsTrans (String × String) (fun a b => a.1 ≤ b.1) :=
  ⟨fun _ _ _ hab hbc => le_trans hab hbc⟩

instance : IsAntisymm (String × String) (fun a b => a.1 < b.1) :=
  ⟨fun _ _ hab hba => absurd hba (lt_asymm hab)⟩

/- ---------------------------------------------------------------------
   Section 2: the artifacts cache
   (src/wandb/sdk/wandb_artifacts.py, class ArtifactsCache)
   --------------------------------------------------------------------- -/

/-- Value of one character of the standard base64 alphabet, `none` for a
character outside it (`base64.b64decode` discards those). -/
def b64CharVal (c : Char) : Option Nat :=
  if 'A' ≤ c ∧ c ≤ 'Z' then some (c.toNat - 65)
  else if 'a' ≤ c ∧ c ≤ 'z' then some (c.toNat - 97 + 26)
  else if '0' ≤ c ∧ c ≤ '9' then some (c.toNat - 48 + 52)
  else if c = '+' then some 62
  else if c = '/' then some 63
  else none

/-- Regroup base64 sextets into bytes (4 sextets carry 3 bytes; a trailing
group of 3 or 2 sextets, left by `=` padding, carries 2 or 1 bytes). -/
def b64SextetsToBytes : List Nat → List Nat
  | a :: b :: c :: d :: rest =>
    (a * 4 + b / 16) :: ((b % 16) * 16 + c / 4) :: ((c % 4) * 64 + d)
      :: b64SextetsToBytes rest
  | [a, b, c] => [a * 4 + b / 16, (b % 16) * 16 + c / 4]
  | [a, b] => [a * 4 + b / 16]
  | _ => []

/-- `base64.b64decode` (Python standard library): alphabet characters are
mapped to sextets, everything else (including the `=` padding) is dropped,
and the sextets are regrouped into bytes. -/
def b64decode (s : String) : List Nat :=
  b64SextetsToBytes (s.toList.filterMap b64CharVal)

/-- Lower-case hex digit of a value below 16. -/
def hexDigit (n : Nat) : Char :=
  if n < 10 then Char.ofNat (48 + n) else Char.ofNat (87 + n)

/-- Modelled from the spec: `util.bytes_to_hex` (wandb/util.py, which is not
under src); the spec says the cache "decodes to hex", i.e. each byte becomes
two lower-case hex digits. -/
def bytes_to_hex (bs : List Nat) : String :=
  String.mk (bs.foldr (fun b acc => hexDigit (b / 16) :: hexDigit (b % 16) :: acc) [])

/-- `os.path.join` restricted to relative components, as the cache uses it. -/
def ospathjoin : List String → String
  | [] => ""
  | [p] => p
  | p :: rest => p ++ "/" ++ ospathjoin rest

/-- `os.path.dirname`: everything before the last slash. -/
def dirname (p : String) : String :=
  String.intercalate "/" ((p.splitOn "/").dropLast)

/-- The filesystem as the cache sees it: the byte length of the file at a
path when a regular file exists there (`os.path.isfile` plus
`os.path.getsize`), and the set of directories known to exist. -/
structure CacheFS where
  fileSize : String → Option Nat
  dirs : List String

/-- Modelled from the spec: `util.mkdir_exists_ok` (wandb/util.py, not under
src); the spec says a miss "ensures parent dir exists". -/
def mkdir_exists_ok (fs : CacheFS) (d : String) : CacheFS :=
  { fs with dirs := d :: fs.dirs }

/-- `ArtifactsCache` holds the cache root (wandb_artifacts.py lines 31-36). -/
structure ArtifactsCache where
  cache_dir : String

/-- `ArtifactsCache.check_md5_obj_path` (wandb_artifacts.py lines 38-44). -/
def ArtifactsCache.check_md5_obj_path (cache : ArtifactsCache) (fs : CacheFS)
    (b64_md5 : String) (size : Nat) : (String × Bool) × CacheFS :=
  let hex_md5 := bytes_to_hex (b64decode b64_md5)
  let path := ospathjoin
    [cache.cache_dir, "obj", "md5", hex_md5.take 2, hex_md5.drop 2]
  match fs.fileSize path with
  | some s =>
    if s = size then ((path, true), fs)
    else ((path, false), mkdir_exists_ok fs (dirname path))
  | none => ((path, false), mkdir_exists_ok fs (dirname path))

/-- `ArtifactsCache.check_etag_obj_path` (wandb_artifacts.py lines 46-51). -/
def ArtifactsCache.check_etag_obj_path (cache : ArtifactsCache) (fs : CacheFS)
    (etag : String) (size : Nat) : (String × Bool) × CacheFS :=
  let path := ospathjoin
    [cache.cache_dir, "obj", "etag", etag.take 2, etag.drop 2]
  match fs.fileSize path with
  | some s =>
    if s = size then ((path, true), fs)
    else ((path, false), mkdir_exists_ok fs (dirname path))
  | none => ((path, false), mkdir_exists_ok fs (dirname path))

/- ---------------------------------------------------------------------
   Section 3: the tfevents filename filter
   (src/wandb/internal/tb_watcher.py, is_tfevents_file_created_by)
   --------------------------------------------------------------------- -/

/-- Split a character list at every occurrence of `sep`, keeping empty
pieces, exactly like Python `str.split(sep)` on a one-character separator. -/
def splitOnCharAux (sep : Char) : List Char → List Char → List (List Char)
  | [], acc => [acc.reverse]
  | c :: rest, acc =>
    if c = sep then acc.reverse :: splitOnCharAux sep rest []
    else splitOnCharAux sep rest (c :: acc)

/-- Python `s.split(sep)` for a one-character separator. -/
def pySplitChar (sep : Char) (s : String) : List String :=
  (splitOnCharAux sep s.toList []).map String.mk

/-- Python `s.endswith(suffix)`. -/
def pyEndsWith (s suffix : String) : Bool :=
  suffix.toList.isSuffixOf s.toList

/-- `os.path.basename`: the part after the last slash. -/
def pyBasename (p : String) : String :=
  (pySplitChar '/' p).getLastD ""

/-- Digit-list value, little helper for `pyInt`. -/
def digitsToNat (l : List Char) : Nat :=
  l.foldl (fun a c => a * 10 + (c.toNat - 48)) 0

/-- Python `int(s)` on the forms the tfevents filter meets: an optional
sign followed by decimal digits, `none` when `int` would raise
`ValueError`. -/
def pyInt (s : String) : Option Int :=
  match s.toList with
  | [] => none
  | '-' :: rest =>
    if rest ≠ [] ∧ rest.all Char.isDigit then some (-(digitsToNat rest : Int))
    else none
  | '+' :: rest =>
    if rest ≠ [] ∧ rest.all Char.isDigit then some ((digitsToNat rest : Int))
    else none
  | l =>
    if l.all Char.isDigit then some ((digitsToNat l : Int)) else none

/-- The hostname loop of `is_tfevents_file_created_by` (tb_watcher.py lines
60-66): component `i` of the hostname must equal filename component
`start + i`; running past the end of the filename (IndexError) or any
mismatch yields False. -/
def hostCompsMatch (comps : List String) : Nat → List String → Bool
  | _, [] => true
  | start, p :: rest =>
    match comps[start]? with
    | none => false
    | some c => if p = c then hostCompsMatch comps (start + 1) rest else false

/-- `is_tfevents_file_created_by` (tb_watcher.py lines 41-76).  `none`
models the `ValueError` raised on an empty path; every caught exception
(`list.index`, IndexError, `int` ValueError) returns `some false` as in
the source. -/
def is_tfevents_file_created_by (path hostname : String) (start_time : Int) :
    Option Bool :=
  if path = "" then none
  else
    let bn := pyBasename path
    if pyEndsWith bn ".profile_empty" then some false
    else
      let comps := pySplitChar '.' bn
      if "tfevents" ∈ comps then
        let idx := comps.indexOf "tfevents"
        if hostCompsMatch comps (idx + 2) (pySplitChar '.' hostname) then
          match (comps[idx + 1]?).bind pyInt with
          | some created_time => some (decide (start_time ≤ created_time))
          | none => some false
        else some false
      else some false

/-- The filter condition exactly as the spec words it, for comparison with
the source translation: not a `.profile_empty` file, a `tfevents`
component exists, the component right after it parses as an integer that
is at least the start time, and the hostname components match the filename
components starting two positions after `tfevents`. -/
def tfeventsOursSpec (path hostname : String) (start_time : Int) : Prop :=
  let bn := pyBasename path
  let comps := pySplitChar '.' bn
  let hostparts := pySplitChar '.' hostname
  let idx := comps.indexOf "tfevents"
  pyEndsWith bn ".profile_empty" = false
  ∧ "tfevents" ∈ comps
  ∧ (∃ created_time : Int,
      (comps[idx + 1]?).bind pyInt = some created_time
      ∧ start_time ≤ created_time)
  ∧ (comps.drop (idx + 2)).take hostparts.length = hostparts

/- ---------------------------------------------------------------------
   Section 4: the sweep agent
   (src/wandb/wandb_agent.py, class Agent)
   --------------------------------------------------------------------- -/

/-- `Agent.FLAPPING_MAX_SECONDS` (wandb_agent.py line 126). -/
def FLAPPING_MAX_SECONDS : Nat := 60

/-- `Agent.FLAPPING_MAX_FAILURES` (wandb_agent.py line 127). -/
def FLAPPING_MAX_FAILURES : Nat := 3

/-- `Agent.KILL_DELAY` (wandb_agent.py line 125), the default used when the
environment does not override it. -/
def KILL_DELAY : Nat := 30

/-- `Agent.is_flapping` (wandb_agent.py lines 155-161).
`disable_flapping_env` is `os.getenv(wandb.env.AGENT_DISABLE_FLAPPING)`;
`start_time` is `wandb.START_TIME`; times are modelled as naturals since
only order and addition matter.  When the 60-second window has passed the
Python function falls off the end and returns None, which every caller
treats as false, so the embedding returns false there. -/
def Agent.is_flapping (disable_flapping_env : Option String)
    (now start_time failed : Nat) : Bool :=
  if disable_flapping_env = some "true" then false
  else if now < start_time + FLAPPING_MAX_SECONDS then
    decide (FLAPPING_MAX_FAILURES ≤ failed)
  else false

/-- The agent counters touched by the poll loop
(`_failed`, `_finished`, `_running`). -/
structure AgentState where
  failed : Nat
  finished : Nat
  running : Bool

/-- The finished-child arm of the poll loop in `Agent.run`
(wandb_agent.py lines 196-221), for a subprocess child whose `poll()`
returned the integer `exit_code`: a positive exit code first increments
`_failed`, and if `is_flapping()` then holds, `_running` is cleared and the
loop breaks (no cleanup, no `_finished` increment); in every other case the
run is cleaned up and `_finished` increments. -/
def Agent.pollFinishedChild (disable_flapping_env : Option String)
    (now start_time : Nat) (s : AgentState) (exit_code : Int) : AgentState :=
  if 0 < exit_code then
    let failed := s.failed + 1
    if Agent.is_flapping disable_flapping_env now start_time failed then
      { failed := failed, finished := s.finished, running := false }
    else
      { failed := failed, finished := s.finished + 1, running := s.running }
  else
    { failed := s.failed, finished := s.finished + 1, running := s.running }

/-- The effect `_command_stop` can have on a child process. -/
inductive StopAction where
  | terminate
  | kill
deriving DecidableEq, Repr

/-- The per-run state `_command_stop` reads and writes:
`last_sigterm_time` of the `AgentProcess` entry. -/
structure RunProc where
  last_sigterm_time : Option Nat
deriving DecidableEq, Repr

/-- `Agent._command_stop` (wandb_agent.py lines 389-408) for a `run_id`
present in `_run_processes`: on the first stop it records `now` and
terminates (SIGTERM on POSIX, CTRL-C event on Windows, inside
`AgentProcess.terminate`); afterwards it kills only when
`now > last_sigterm_time + kill_delay`, and otherwise does nothing. -/
def Agent.command_stop (kill_delay now : Nat) (proc : RunProc) :
    RunProc × Option StopAction :=
  match proc.last_sigterm_time with
  | none => ({ last_sigterm_time := some now }, some StopAction.terminate)
  | some t =>
    if t + kill_delay < now then (proc, some StopAction.kill)
    else (proc, none)

/-- A sequence of stop commands for one run at the given times, returning
the final per-run state and the action each command performed. -/
def Agent.runStops (kill_delay : Nat) (proc : RunProc) :
    List Nat → RunProc × List (Option StopAction)
  | [] => (proc, [])
  | t :: rest =>
    let step := Agent.command_stop kill_delay t proc
    let tail := Agent.runStops kill_delay step.1 rest
    (tail.1, step.2 :: tail.2)

/- ---------------------------------------------------------------------
   Section 5: MultiHandler dispatch
   (src/wandb/sdk/wandb_artifacts.py, class MultiHandler)
   --------------------------------------------------------------------- -/

/-- Characters allowed after the first letter of a URL scheme. -/
def isSchemeChar (c : Char) : Bool :=
  c.isAlphanum ∨ c = '+' ∨ c = '-' ∨ c = '.'

/-- The scheme component of `urlparse(u)`: the part before the first colon
when it is a letter followed by scheme characters, lower-cased; the empty
string otherwise. -/
def urlScheme (u : String) : String :=
  if u.toList.contains ':' then
    match (pySplitChar ':' u).headD "" with
    | cand =>
      match cand.toList with
      | [] => ""
      | c :: rest =>
        if c.isAlpha ∧ rest.all isSchemeChar then
          String.mk ((c :: rest).map Char.toLower)
        else ""
  else ""

/-- What a `MultiHandler.store_path` call can come to. -/
inductive MultiStoreResult where
  | handled (scheme : String)
  | handledByDefault
  | errAttributeError
  | errValueError
deriving DecidableEq, Repr

/-- `MultiHandler.store_path` (wandb_artifacts.py lines 543-559).  The
registered handlers are represented by their schemes and the default
handler by its presence, which is all the dispatch inspects.  The source
guards the fallback with `self._handlers is not None`; `_handlers` is the
dict built in `__init__` (line 518) and is never None, so that guard is
always true: with no default handler the dispatch then calls `store_path`
on None, which raises AttributeError, and the
`No storage handler registered` ValueError is unreachable. -/
def MultiHandler.store_path (handlers : List String) (hasDefault : Bool)
    (path : String) : MultiStoreResult :=
  let scheme := urlScheme path
  if handlers.contains scheme then MultiStoreResult.handled scheme
  else
    let handlersIsNotNone := true
    if handlersIsNotNone then
      if hasDefault then MultiStoreResult.handledByDefault
      else MultiStoreResult.errAttributeError
    else MultiStoreResult.errValueError

/- ---------------------------------------------------------------------
   Section 6: manifest entries and the local file handler
   (src/wandb/sdk/wandb_artifacts.py, LocalFileHandler and
   ArtifactManifestEntry)
   --------------------------------------------------------------------- -/

/-- `DEFAULT_MAX_OBJECTS` (wandb_artifacts.py line 605). -/
def DEFAULT_MAX_OBJECTS : Nat := 10000

/-- `ArtifactManifestEntry` (wandb_artifacts.py lines 332-355) restricted
to the fields the handlers fill in (`birth_artifact_id` and `local_path`
stay at their defaults in every path studied here). -/
structure ArtifactManifestEntry where
  path : String
  ref : Option String
  digest : String
  size : Option Nat
  extra : List (String × String)
deriving DecidableEq, Repr

/-- Python `max_objects or DEFAULT_MAX_OBJECTS`: `or` replaces both `None`
and `0` (falsy) by the default. -/
def pyOrNat (n : Option Nat) (default : Nat) : Nat :=
  match n with
  | none => default
  | some k => if k = 0 then default else k

/-- Split a character list at the first occurrence of `sep`: the part
before it, and the rest beginning with `sep` (or `([], l)` when absent
... the second component keeps the separator). -/
def splitAtChar (sep : Char) : List Char → List Char × List Char
  | [] => ([], [])
  | c :: rest =>
    if c = sep then ([], c :: rest)
    else
      let p := splitAtChar sep rest
      (c :: p.1, p.2)

/-- The netloc and path of `urlparse` on an absolute URI
`scheme://netloc/rest`, the only shape the storage handlers receive:
netloc is what follows the double slash up to the next slash, path is the
remainder (keeping its leading slash). -/
def urlNetlocPath (u : String) : String × String :=
  let afterScheme :=
    if urlScheme u = "" then u.toList
    else (splitAtChar ':' u.toList).2.drop 1
  match afterScheme with
  | '/' :: '/' :: rest =>
    let p := splitAtChar '/' rest
    (String.mk p.1, String.mk p.2)
  | l => ("", String.mk l)

/-- The filesystem as `LocalFileHandler.store_path` sees it.  `getsize`
and `md5_file_b64` take the string the source passes them, resolved
against the process working directory when relative; `none` models the
`FileNotFoundError`/`OSError` the Python call would raise.  `walk` is
`os.walk` from a directory: one `(dirpath, filenames)` group per visited
directory. -/
structure LocalFileSystem where
  isdir : String → Bool
  isfile : String → Bool
  walk : String → List (String × List String)
  getsize : String → Option Nat
  md5_file_b64 : String → Option String

/-- The inner loop of the directory branch of `LocalFileHandler.store_path`
(wandb_artifacts.py lines 669-683), flattened over the `os.walk` groups
(the loop never reads the walk root): the running count `i` increments
first and the `Exceeded ... objects tracked` error fires as soon as
`i >= max_objects`; each entry is then built from the BARE filename
`sub_path`: `os.path.getsize(sub_path)` and `md5_file_b64(sub_path)`,
which resolve against the working directory, not the walked root. -/
def localStoreWalkFiles (fs : LocalFileSystem) (refBase : String)
    (maxObj : Nat) : Nat → List String → Except String (List ArtifactManifestEntry)
  | _, [] => Except.ok []
  | i, sub_path :: rest =>
    if maxObj ≤ i + 1 then Except.error "Exceeded max_objects tracked"
    else
      match fs.getsize sub_path, fs.md5_file_b64 sub_path with
      | some sz, some dg =>
        match localStoreWalkFiles fs refBase maxObj (i + 1) rest with
        | Except.ok es =>
          Except.ok (ArtifactManifestEntry.mk (pyBasename sub_path)
            (some (ospathjoin [refBase, sub_path])) dg (some sz) [] :: es)
        | Except.error e => Except.error e
      | _, _ => Except.error "FileNotFoundError"

/-- `LocalFileHandler.store_path` (wandb_artifacts.py lines 649-697). -/
def LocalFileHandler.store_path (fs : LocalFileSystem) (path : String)
    (name : Option String) (checksum : Bool) (max_objects : Option Nat) :
    Except String (List ArtifactManifestEntry) :=
  let url := urlNetlocPath path
  let local_path := url.1 ++ url.2
  let maxObj := pyOrNat max_objects DEFAULT_MAX_OBJECTS
  if checksum = false then
    Except.ok [ArtifactManifestEntry.mk (name.getD (pyBasename path))
      (some path) path none []]
  else if fs.isdir local_path then
    localStoreWalkFiles fs path maxObj 0
      ((fs.walk local_path).flatMap (fun rf => rf.2))
  else if fs.isfile local_path then
    match fs.getsize local_path, fs.md5_file_b64 local_path with
    | some sz, some dg =>
      Except.ok [ArtifactManifestEntry.mk (name.getD (pyBasename local_path))
        (some path) dg (some sz) []]
    | _, _ => Except.error "FileNotFoundError"
  else Except.error "ValueError: path must be a valid file or directory"

/-- Modelled from the spec: the directory walk as the specification
requires it ("spec requires using the fully qualified path", section 9,
and "raises if exceeded", section 4.2): sizes and digests come from
`dirpath/sub_path`, and the error fires only when the file count exceeds
`max_objects`. -/
def localStoreWalkFilesAsSpecified (fs : LocalFileSystem) (refBase : String)
    (maxObj : Nat) : Nat → List (String × String) →
    Except String (List ArtifactManifestEntry)
  | _, [] => Except.ok []
  | i, (root, sub_path) :: rest =>
    if maxObj < i + 1 then Except.error "Exceeded max_objects tracked"
    else
      match fs.getsize (ospathjoin [root, sub_path]),
          fs.md5_file_b64 (ospathjoin [root, sub_path]) with
      | some sz, some dg =>
        match localStoreWalkFilesAsSpecified fs refBase maxObj (i + 1) rest with
        | Except.ok es =>
          Except.ok (ArtifactManifestEntry.mk (pyBasename sub_path)
            (some (ospathjoin [refBase, sub_path])) dg (some sz) [] :: es)
        | Except.error e => Except.error e
      | _, _ => Except.error "FileNotFoundError"

/-- A concrete directory `/d` holding `top.txt` (3 bytes) and a nested
`sub/f.txt` (5 bytes); sizes and digests exist only under the fully
qualified paths, the working directory holds no `top.txt` or `f.txt`. -/
def nestedDirFS : LocalFileSystem where
  isdir := fun p => p = "/d" ∨ p = "/d/sub"
  isfile := fun p => p = "/d/top.txt" ∨ p = "/d/sub/f.txt"
  walk := fun p =>
    if p = "/d" then [("/d", ["top.txt"]), ("/d/sub", ["f.txt"])] else []
  getsize := fun p =>
    if p = "/d/top.txt" then some 3
    else if p = "/d/sub/f.txt" then some 5
    else none
  md5_file_b64 := fun p =>
    if p = "/d/top.txt" then some "MD5TOP"
    else if p = "/d/sub/f.txt" then some "MD5F"
    else none

/- ---------------------------------------------------------------------
   Section 7: the cloud and http handlers, checksum=False branch
   (src/wandb/sdk/wandb_artifacts.py, S3Handler, GCSHandler, HTTPHandler)
   --------------------------------------------------------------------- -/

/-- `S3Handler._parse_uri` and the identical `GCSHandler._parse_uri`
(wandb_artifacts.py lines 726-730 and 922-926): bucket is the netloc, key
the url path without its leading slash. -/
def parse_uri (uri : String) : String × String :=
  let url := urlNetlocPath uri
  (url.1, url.2.drop 1)

/-- The boto3-backed body of the `checksum=True` branch of
`S3Handler.store_path` (wandb_artifacts.py lines 799-838): an external
SDK interaction (HEAD, listing, entry construction), abstracted as an
oracle so that theorems can quantify over every possible backend
behaviour. -/
structure S3Oracle where
  checksummedStore : String → Option String → Nat →
    Except String (List ArtifactManifestEntry)

/-- `S3Handler.store_path` (wandb_artifacts.py lines 792-797 and the
oracle for the rest): with `checksum=False` it returns a single entry
`(name or key, ref=path, digest=path)` before touching the bucket. -/
def S3Handler.store_path (s3 : S3Oracle) (path : String)
    (name : Option String) (checksum : Bool) (max_objects : Option Nat) :
    Except String (List ArtifactManifestEntry) :=
  let bk := parse_uri path
  let maxObj := pyOrNat max_objects DEFAULT_MAX_OBJECTS
  if checksum = false then
    Except.ok [ArtifactManifestEntry.mk (name.getD bk.2) (some path) path none []]
  else s3.checksummedStore path name maxObj

/-- The google-cloud-storage-backed body of the `checksum=True` branch of
`GCSHandler.store_path` (wandb_artifacts.py lines 974-1001), abstracted
like the S3 one. -/
structure GCSOracle where
  checksummedStore : String → Option String → Nat →
    Except String (List ArtifactManifestEntry)

/-- `GCSHandler.store_path` (wandb_artifacts.py lines 967-973 and the
oracle for the rest). -/
def GCSHandler.store_path (gcs : GCSOracle) (path : String)
    (name : Option String) (checksum : Bool) (max_objects : Option Nat) :
    Except String (List ArtifactManifestEntry) :=
  let bk := parse_uri path
  let maxObj := pyOrNat max_objects DEFAULT_MAX_OBJECTS
  if checksum = false then
    Except.ok [ArtifactManifestEntry.mk (name.getD bk.2) (some path) path none []]
  else gcs.checksummedStore path name maxObj

/-- The streaming GET of the `checksum=True` branch of
`HTTPHandler.store_path` (wandb_artifacts.py lines 1074-1079), abstracted
as an oracle. -/
structure HTTPOracle where
  checksummedStore : String → String →
    Except String (List ArtifactManifestEntry)

/-- `HTTPHandler.store_path` (wandb_artifacts.py lines 1069-1079 and the
oracle for the GET): `name = name or os.path.basename(path)` and with
`checksum=False` a single `(name, ref=path, digest=path)` entry is
returned without any request. -/
def HTTPHandler.store_path (http : HTTPOracle) (path : String)
    (name : Option String) (checksum : Bool) :
    Except String (List ArtifactManifestEntry) :=
  let nm := name.getD (pyBasename path)
  if checksum = false then
    Except.ok [ArtifactManifestEntry.mk nm (some path) path none []]
  else http.checksummedStore path nm

/-- A flat directory `/d` with files `a` and `b` that happen to resolve
from the working directory too, isolating the max-objects behaviour of the
walk from the path-resolution bug. -/
def flatDirFS : LocalFileSystem where
  isdir := fun p => p = "/d"
  isfile := fun _ => false
  walk := fun p => if p = "/d" then [("/d", ["a", "b"])] else []
  getsize := fun p =>
    if p = "a" ∨ p = "/d/a" then some 1
    else if p = "b" ∨ p = "/d/b" then some 2
    else none
  md5_file_b64 := fun p =>
    if p = "a" ∨ p = "/d/a" then some "MA"
    else if p = "b" ∨ p = "/d/b" then some "MB"
    else none

/- ---------------------------------------------------------------------
   Section 8: the artifact builder and finalization
   (src/wandb/sdk/wandb_artifacts.py, class Artifact)
   --------------------------------------------------------------------- -/

/-- Modelled from the spec: `ArtifactManifest.add_entry`
(wandb/interface/artifacts.py, which is not under src); the spec describes
the manifest as an "Ordered mapping path → ManifestEntry", so insertion
binds the path to the digest, replacing any earlier binding and otherwise
appending in insertion order. -/
def addEntry (entries : List (String × String)) (path digest : String) :
    List (String × String) :=
  if entries.any (fun kv => kv.1 = path) then
    entries.map (fun kv => if kv.1 = path then (path, digest) else kv)
  else entries ++ [(path, digest)]

/-- Python `name.lstrip("/")`. -/
def lstripSlash (s : String) : String :=
  String.mk (s.toList.dropWhile (fun c => c = '/'))

/-- `os.path.relpath(p, start=base)` for a path strictly under `base`, the
only case the artifact walk produces. -/
def relpathUnder (base p : String) : String :=
  p.drop (base.length + 1)

/-- The artifact state the mutating operations read and write: the
`_final` flag, the `_added_new` flag and the manifest entry map,
represented as in section 1 by its (path, digest) pairs. -/
structure Artifact where
  final : Bool
  added_new : Bool
  entries : List (String × String)
deriving DecidableEq, Repr

/-- `Artifact.new_file` (wandb_artifacts.py lines 131-138):
`_ensure_can_add` raises on a finalized artifact before anything else;
then a duplicate staged name raises; otherwise the staging file is opened
and `_added_new` is set.  `fsExists` is `os.path.exists`. -/
def Artifact.new_file (a : Artifact) (fsExists : String → Bool)
    (artifact_dir name : String) : Artifact × Option String :=
  if a.final then (a, some "ValueError: cannot add to finalized artifact")
  else
    let path := ospathjoin [artifact_dir, lstripSlash name]
    if fsExists path then (a, some "ValueError: file with that name already exists")
    else ({ a with added_new := true }, none)

/-- `Artifact.add_file` (wandb_artifacts.py lines 140-153). -/
def Artifact.add_file (a : Artifact) (fs : LocalFileSystem)
    (local_path : String) (name : Option String) : Artifact × Option String :=
  if a.final then (a, some "ValueError: cannot add to finalized artifact")
  else if fs.isfile local_path = false then
    (a, some "ValueError: path is not a file")
  else
    match fs.md5_file_b64 local_path, fs.getsize local_path with
    | some dg, _ =>
      ({ a with entries := addEntry a.entries (name.getD (pyBasename local_path)) dg },
       none)
    | _, _ => (a, some "FileNotFoundError")

/-- `Artifact.add_dir` (wandb_artifacts.py lines 155-196): walk the tree,
one entry per file under the logical path `relpath(physical, local_path)`
optionally prefixed by `name`.  The thread pool adds the same set of
entries the sequential fold below does; the manifest digest is
insertion-order independent (section 1), so the fold loses nothing the
claims observe. -/
def Artifact.add_dir (a : Artifact) (fs : LocalFileSystem)
    (local_path : String) (name : Option String) : Artifact × Option String :=
  if a.final then (a, some "ValueError: cannot add to finalized artifact")
  else if fs.isdir local_path = false then
    (a, some "ValueError: path is not a directory")
  else
    let paths := (fs.walk local_path).flatMap (fun rf =>
      rf.2.map (fun fname =>
        let physical := ospathjoin [rf.1, fname]
        let logical := relpathUnder local_path physical
        (match name with
         | some n => ospathjoin [n, logical]
         | none => logical,
         physical)))
    let step := fun (acc : List (String × String) × Option String) (lp : String × String) =>
      match acc.2 with
      | some e => (acc.1, some e)
      | none =>
        match fs.md5_file_b64 lp.2, fs.getsize lp.2 with
        | some dg, _ => (addEntry acc.1 lp.1 dg, none)
        | _, _ => (acc.1, some "FileNotFoundError")
    let res := paths.foldl step (a.entries, none)
    match res.2 with
    | some e => (a, some e)
    | none => ({ a with entries := res.1 }, none)

/-- `Artifact.add_reference` (wandb_artifacts.py lines 198-210): a
schemeless URI raises first, then the finalized check, then the policy
stores the reference and its entries are added.  `storeRef` is
`self._storage_policy.store_reference`, the MultiHandler dispatch of
section 5 with the handlers of sections 6 and 7. -/
def Artifact.add_reference (a : Artifact)
    (storeRef : String → Option String → Bool → Option Nat →
      Except String (List ArtifactManifestEntry))
    (uri : String) (name : Option String) (checksum : Bool)
    (max_objects : Option Nat) : Artifact × Option String :=
  if urlScheme uri = "" then
    (a, some "ValueError: references must be URIs")
  else if a.final then
    (a, some "ValueError: cannot add to finalized artifact")
  else
    match storeRef uri name checksum max_objects with
    | Except.ok es =>
      ({ a with entries := es.foldl (fun m e => addEntry m e.path e.digest) a.entries },
       none)
    | Except.error e => (a, some e)

/-- `Artifact.finalize` (wandb_artifacts.py lines 218-252): idempotent;
stages created files through `add_dir` when `_added_new`, then sets
`_final`.  The digest is computed from the entry map
(`ArtifactManifestV1.digest`, section 1) and the cache remap rewrites only
`local_path` fields, which leaves the (path, digest) map untouched. -/
def Artifact.finalize (a : Artifact) (fs : LocalFileSystem)
    (artifact_dir : String) : Artifact :=
  if a.final then a
  else
    let a1 := if a.added_new then (a.add_dir fs artifact_dir none).1 else a
    { a1 with final := true }

/- ---------------------------------------------------------------------
   Section 9: TBHistory
   (src/wandb/internal/tb_watcher.py, class TBHistory)
   --------------------------------------------------------------------- -/

/-- A Python dict as the history rows use it: string keys in insertion
order, numeric values. -/
abbrev Row : Type := List (String × Int)

/-- Python dict assignment `d[k] = v`: overwrite in place when the key is
present, append otherwise. -/
def dictSet (r : Row) (k : String) (v : Int) : Row :=
  if r.any (fun kv => kv.1 = k) then
    r.map (fun kv => if kv.1 = k then (k, v) else kv)
  else r ++ [(k, v)]

/-- Python `d.update(d2)` starting from a dict `r`. -/
def dictUpdate (r d : Row) : Row :=
  d.foldl (fun acc kv => dictSet acc kv.1 kv.2) r

/-- `TBHistory` state with dict identity made explicit: `heap` holds every
dict ever allocated and the integers `dataRef` (for `self._data`) and
`added` (for `self._added`) are references into it.  A mutation through
one reference is visible through every copy of that reference, exactly as
for Python dict objects; in particular `self._data` keeps designating a
dict after `_flush` has appended that same dict to `self._added`. -/
structure TBHistory where
  step : Nat
  heap : List Row
  dataRef : Nat
  added : List Nat

/-- The dict a reference designates. -/
def TBHistory.dictAt (h : TBHistory) (r : Nat) : Row :=
  (h.heap[r]?).getD []

/-- `TBHistory.__init__` (tb_watcher.py lines 322-325). -/
def TBHistory.init : TBHistory := ⟨0, [[]], 0, []⟩

/-- `TBHistory._flush` (tb_watcher.py lines 327-332): nothing when the
in-flight dict is empty; otherwise `self._data["_step"] = self._step`
mutates that dict in place, its reference is appended to `_added` and the
step counter increments — `self._data` still points at the same dict. -/
def TBHistory.flush (h : TBHistory) : TBHistory :=
  if h.dictAt h.dataRef = [] then h
  else
    { step := h.step + 1,
      heap := h.heap.set h.dataRef
        (dictSet (h.dictAt h.dataRef) "_step" (h.step : Int)),
      dataRef := h.dataRef,
      added := h.added ++ [h.dataRef] }

/-- `TBHistory.add` (tb_watcher.py lines 334-337): flush, then point
`self._data` at a freshly allocated dict filled from `d`. -/
def TBHistory.add (h : TBHistory) (d : Row) : TBHistory :=
  let h1 := h.flush
  { step := h1.step,
    heap := h1.heap ++ [dictUpdate [] d],
    dataRef := h1.heap.length,
    added := h1.added }

/-- `TBHistory._get_and_reset` (tb_watcher.py lines 342-345): hand back
the accumulated rows — the dicts the stored references designate at this
moment — and clear `_added` (the source copies the reference list, not
the dicts). -/
def TBHistory.getAndReset (h : TBHistory) : TBHistory × List Row :=
  ({ h with added := [] }, h.added.map (fun r => h.dictAt r))

/-- The operations of the claim. -/
inductive TBOp where
  | add (d : Row)
  | flush
  | getAndReset
deriving DecidableEq

/-- Run a sequence of operations from a state, concatenating everything
the `_get_and_reset` calls return. -/
def TBHistory.runOps : TBHistory → List TBOp → TBHistory × List Row
  | h, [] => (h, [])
  | h, TBOp.add d :: rest => TBHistory.runOps (h.add d) rest
  | h, TBOp.flush :: rest => TBHistory.runOps h.flush rest
  | h, TBOp.getAndReset :: rest =>
    let gr := h.getAndReset
    let tail := TBHistory.runOps gr.1 rest
    (tail.1, gr.2 ++ tail.2)

/-- The emission property the claim asserts of the concatenated returned
rows: `_step` values strictly increasing and contiguous from 0, and no
empty row. -/
def goodRows (rows : List Row) : Prop :=
  rows.map (fun r => List.lookup "_step" r)
    = (List.range rows.length).map (fun i => some ((i : Nat) : Int))
  ∧ ∀ r ∈ rows, r ≠ ([] : Row)

/-- The pending rows — flushed but not yet returned — carry consecutive
steps starting at `base` and are nonempty. -/
def pendingSteps (h : TBHistory) (base : Nat) : Prop :=
  h.added.map (fun r => List.lookup "_step" (h.dictAt r))
    = (List.range' base h.added.length).map (fun i => some ((i : Nat) : Int))
  ∧ ∀ r ∈ h.added, h.dictAt r ≠ ([] : Row)

/-- The state invariant kept along flush-free operation: the step counter
sits at `base` plus the pending count, the pending references are live
and distinct from the in-flight reference. -/
def histInv (h : TBHistory) (base : Nat) : Prop :=
  h.step = base + h.added.length
  ∧ pendingSteps h base
  ∧ h.dataRef < h.heap.length
  ∧ (∀ r ∈ h.added, r < h.heap.length)
  ∧ h.dataRef ∉ h.added

/-- As `histInv` but without the in-flight/pending separation, which one
explicit `_flush` destroys (it parks `dataRef` inside `added`). -/
def histInvW (h : TBHistory) (base : Nat) : Prop :=
  h.step = base + h.added.length
  ∧ pendingSteps h base
  ∧ h.dataRef < h.heap.length
  ∧ (∀ r ∈ h.added, r < h.heap.length)

/-- The dict heap after the in-place `_step` stamp of `_flush`. -/
def flushHeap (h : TBHistory) : List Row :=
  h.heap.set h.dataRef (dictSet (h.dictAt h.dataRef) "_step" (h.step : Int))

/- =====================================================================
   Theorems
   ===================================================================== -/

/-- Keys-nodup lists that are sorted by key under `≤` are sorted under `<`. -/
theorem sorted_lt_of_sorted_le_nodup (l : List (String × String))
    (hs : List.Sorted (fun a b : String × String => a.1 ≤ b.1) l)
    (hnd : (l.map Prod.fst).Nodup) :
    List.Sorted (fun a b : String × String => a.1 < b.1) l := by
  have hne : List.Pairwise (fun a b : String × String => a.1 ≠ b.1) l := by
    have := (List.pairwise_map (l := l)).mp hnd
    exact this
  have hand := List.Pairwise.and hs hne
  exact hand.imp (fun h => lt_of_le_of_ne h.1 h.2)

/-- Two keys-nodup permutations have the same key-sorted enumeration. -/
theorem sortedEntries_eq_of_perm (l₁ l₂ : List (String × String))
    (hnd : (l₁.map Prod.fst).Nodup) (hp : l₁.Perm l₂) :
    sortedEntries l₁ = sortedEntries l₂ := by
  have hp₁ : (sortedEntries l₁).Perm (sortedEntries l₂) := by
    exact ((List.perm_insertionSort _ l₁).trans hp).trans
      (List.perm_insertionSort _ l₂).symm
  have hnd₁ : ((sortedEntries l₁).map Prod.fst).Nodup := by
    exact (((List.perm_insertionSort _ l₁).map Prod.fst).nodup_iff).mpr hnd
  have hnd₂ : ((sortedEntries l₂).map Prod.fst).Nodup := by
    exact ((hp₁.map Prod.fst).nodup_iff).mp hnd₁
  exact List.eq_of_perm_of_sorted hp₁
    (sorted_lt_of_sorted_le_nodup _ (List.sorted_insertionSort _ l₁) hnd₁)
    (sorted_lt_of_sorted_le_nodup _ (List.sorted_insertionSort _ l₂) hnd₂)

/-- Claim C1: for every manifest (entries with distinct paths, inserted in
any order), `ArtifactManifestV1.digest` equals the MD5 hex digest of
`"wandb-artifact-manifest-v1\n"` followed by `"{path}:{digest}\n"` for each
entry in ascending path order (`s` below is any such ascending enumeration
of the entry set), and any two insertion orders of the same entries yield
equal digests. -/
theorem manifest_digest_sorted_and_deterministic
    (md5hex : String → String) (l₁ l₂ s : List (String × String))
    (hnd : (l₁.map Prod.fst).Nodup) (hp : l₁.Perm l₂)
    (hsp : s.Perm l₁)
    (hss : List.Sorted (fun a b : String × String => a.1 ≤ b.1) s) :
    ArtifactManifestV1.digest md5hex l₁
      = md5hex ("wandb-artifact-manifest-v1\n"
          ++ String.join (s.map manifestLine))
    ∧ ArtifactManifestV1.digest md5hex l₁
      = ArtifactManifestV1.digest md5hex l₂ := by
  have hse : sortedEntries l₁ = s := by
    have hp₁ : (sortedEntries l₁).Perm s :=
      (List.perm_insertionSort _ l₁).trans hsp.symm
    have hnd₁ : ((sortedEntries l₁).map Prod.fst).Nodup :=
      (((List.perm_insertionSort _ l₁).map Prod.fst).nodup_iff).mpr hnd
    have hnds : (s.map Prod.fst).Nodup :=
      ((hp₁.map Prod.fst).nodup_iff).mp hnd₁
    exact List.eq_of_perm_of_sorted hp₁
      (sorted_lt_of_sorted_le_nodup _ (List.sorted_insertionSort _ l₁) hnd₁)
      (sorted_lt_of_sorted_le_nodup _ hss hnds)
  constructor
  · unfold ArtifactManifestV1.digest
    rw [hse]
  · unfold ArtifactManifestV1.digest
    rw [sortedEntries_eq_of_perm l₁ l₂ hnd hp]


/-- Claim C2: both cache lookups return the fixed content address
`<root>/obj/md5/<hex[0:2]>/<hex[2:]>` (resp. `obj/etag/...`), report a hit
iff a file of exactly the requested size sits there (in which case the
filesystem is untouched), and on a miss record the parent directory as
created while reporting a miss. -/
theorem cache_lookup_address_and_hit (cache : ArtifactsCache) (fs : CacheFS)
    (b64_md5 etag : String) (size : Nat) :
    (let hex := bytes_to_hex (b64decode b64_md5)
     let path := cache.cache_dir ++ "/obj/md5/" ++ hex.take 2 ++ "/" ++ hex.drop 2
     let res := cache.check_md5_obj_path fs b64_md5 size
     res.1.1 = path
     ∧ (res.1.2 = true ↔ fs.fileSize path = some size)
     ∧ (fs.fileSize path = some size → res.2 = fs)
     ∧ (fs.fileSize path ≠ some size →
         res.1.2 = false ∧ res.2 = mkdir_exists_ok fs (dirname path)))
    ∧ (let path := cache.cache_dir ++ "/obj/etag/" ++ etag.take 2 ++ "/" ++ etag.drop 2
       let res := cache.check_etag_obj_path fs etag size
       res.1.1 = path
       ∧ (res.1.2 = true ↔ fs.fileSize path = some size)
       ∧ (fs.fileSize path = some size → res.2 = fs)
       ∧ (fs.fileSize path ≠ some size →
           res.1.2 = false ∧ res.2 = mkdir_exists_ok fs (dirname path))) := by
  have hjoin : ∀ a h r : String,
      ospathjoin [a, "obj", "md5", h, r] = a ++ "/obj/md5/" ++ h ++ "/" ++ r := by
    intro a h r
    show a ++ "/" ++ ("obj" ++ "/" ++ ("md5" ++ "/" ++ (h ++ "/" ++ r)))
      = a ++ "/obj/md5/" ++ h ++ "/" ++ r
    simp only [String.append_assoc]
    rfl
  have hjoin₂ : ∀ a h r : String,
      ospathjoin [a, "obj", "etag", h, r] = a ++ "/obj/etag/" ++ h ++ "/" ++ r := by
    intro a h r
    show a ++ "/" ++ ("obj" ++ "/" ++ ("etag" ++ "/" ++ (h ++ "/" ++ r)))
      = a ++ "/obj/etag/" ++ h ++ "/" ++ r
    simp only [String.append_assoc]
    rfl
  constructor
  · dsimp only [ArtifactsCache.check_md5_obj_path]
    rw [hjoin]
    cases hf : fs.fileSize (cache.cache_dir ++ "/obj/md5/"
        ++ (bytes_to_hex (b64decode b64_md5)).take 2 ++ "/"
        ++ (bytes_to_hex (b64decode b64_md5)).drop 2) with
    | none => simp [hf]
    | some s =>
      by_cases hs : s = size
      · subst hs
        simp [hf]
      · simp [hf, hs]
  · dsimp only [ArtifactsCache.check_etag_obj_path]
    rw [hjoin₂]
    cases hf : fs.fileSize (cache.cache_dir ++ "/obj/etag/"
        ++ etag.take 2 ++ "/" ++ etag.drop 2) with
    | none => simp [hf]
    | some s =>
      by_cases hs : s = size
      · subst hs
        simp [hf]
      · simp [hf, hs]

/-- Witness for C1 at the spec scenario: entries a.txt, b.txt inserted in
descending order still hash the ascending preimage, and both insertion
orders agree. -/
theorem manifest_digest_sorted_and_deterministic_witness :
    ArtifactManifestV1.digest (fun s => s)
        [("b.txt", "BB"), ("a.txt", "AA")]
      = "wandb-artifact-manifest-v1\n"
          ++ String.join ([("a.txt", "AA"), ("b.txt", "BB")].map manifestLine)
    ∧ ArtifactManifestV1.digest (fun s => s)
        [("b.txt", "BB"), ("a.txt", "AA")]
      = ArtifactManifestV1.digest (fun s => s)
        [("a.txt", "AA"), ("b.txt", "BB")] :=
  manifest_digest_sorted_and_deterministic (fun s => s)
    [("b.txt", "BB"), ("a.txt", "AA")]
    [("a.txt", "AA"), ("b.txt", "BB")]
    [("a.txt", "AA"), ("b.txt", "BB")]
    (by decide) (by decide) (by decide)
    (by simp [List.sorted_cons, String.le_iff_toList_le]; decide)

/-- Witness for C2: the base64 digest "q83v" decodes to hex abcdef, is found
at cache/obj/md5/ab/cdef with matching size 5 (hit), while an etag lookup at
an unseeded address misses. -/
theorem cache_lookup_address_and_hit_witness :
    (((ArtifactsCache.mk "cache").check_md5_obj_path
        ⟨fun p => if p = "cache/obj/md5/ab/cdef" then some 5 else none, []⟩
        "q83v" 5).1.2 = true)
    ∧ (((ArtifactsCache.mk "cache").check_etag_obj_path
        ⟨fun p => if p = "cache/obj/md5/ab/cdef" then some 5 else none, []⟩
        "etag123" 5).1.2 = false) := by
  have h := cache_lookup_address_and_hit (ArtifactsCache.mk "cache")
    ⟨fun p => if p = "cache/obj/md5/ab/cdef" then some 5 else none, []⟩
    "q83v" "etag123" 5
  constructor
  · exact h.1.2.1.mpr (by decide)
  · exact (h.2.2.2.2 (by decide)).1

/-- The hostname loop succeeds exactly when the filename components from
position `start` start with the hostname components. -/
theorem hostCompsMatch_iff (comps : List String) (hp : List String) :
    ∀ start : Nat,
      hostCompsMatch comps start hp = true
        ↔ (comps.drop start).take hp.length = hp := by
  induction hp with
  | nil =>
    intro start
    simp [hostCompsMatch]
  | cons p rest ih =>
    intro start
    cases hd : comps[start]? with
    | none =>
      have hlen : comps.length ≤ start := by
        by_contra hlt
        push_neg at hlt
        have : comps[start]? = some comps[start] :=
          List.getElem?_eq_some.mpr ⟨hlt, rfl⟩
        rw [this] at hd
        exact Option.noConfusion hd
      have hnil : comps.drop start = [] := List.drop_eq_nil_of_le hlen
      simp [hostCompsMatch, hd, hnil]
    | some c =>
      have hlt : start < comps.length := by
        by_contra hge
        push_neg at hge
        rw [List.getElem?_eq_none hge] at hd
        exact Option.noConfusion hd
      have hdrop : comps.drop start = c :: comps.drop (start + 1) := by
        have := List.drop_eq_getElem_cons hlt
        rw [this]
        congr 1
        have := List.getElem?_eq_some.mp hd
        obtain ⟨h, heq⟩ := this
        exact heq
      simp only [hostCompsMatch, hd, hdrop, List.take_succ_cons, List.length_cons]
      by_cases hpc : p = c
      · subst hpc
        simp [ih (start + 1)]
      · simp [hpc]
        intro h
        exact absurd h.symm hpc

/-- The filter always returns a boolean on a nonempty path. -/
theorem is_tfevents_isSome (path hostname : String) (st : Int)
    (hp : path ≠ "") :
    (is_tfevents_file_created_by path hostname st).isSome = true := by
  unfold is_tfevents_file_created_by
  rw [if_neg hp]
  dsimp only
  split
  · simp
  · split
    · split
      · split <;> simp
      · simp
    · simp

/-- Claim C6: `is_tfevents_file_created_by` raises exactly on an empty
path, and on a nonempty path returns true iff the basename is not a
`.profile_empty` file, has a `tfevents` component whose following
component parses as an integer at least the start time, and whose
components two past `tfevents` start with the dotted local hostname
components; otherwise it returns false. -/
theorem tfevents_filter_characterization (path hostname : String) (st : Int) :
    (is_tfevents_file_created_by path hostname st = none ↔ path = "")
    ∧ (is_tfevents_file_created_by path hostname st = some true
        ↔ (path ≠ "" ∧ tfeventsOursSpec path hostname st)) := by
  by_cases hp : path = ""
  · constructor
    · simp [is_tfevents_file_created_by, hp]
    · simp [is_tfevents_file_created_by, hp]
  · constructor
    · constructor
      · intro hnone
        have := is_tfevents_isSome path hostname st hp
        rw [hnone] at this
        exact absurd this (by simp)
      · intro h
        exact absurd h hp
    · dsimp only [is_tfevents_file_created_by, tfeventsOursSpec]
      rw [if_neg hp]
      simp only [hp, not_false_iff, true_and, ne_eq]
      generalize pyBasename path = bn
      generalize pySplitChar '.' bn = comps
      generalize pySplitChar '.' hostname = hostparts
      generalize comps.indexOf "tfevents" = idx
      cases hpe : pyEndsWith bn ".profile_empty" with
      | true => simp [hpe]
      | false =>
        by_cases hmem : "tfevents" ∈ comps
        · cases hm : hostCompsMatch comps (idx + 2) hostparts with
          | true =>
            have htake := (hostCompsMatch_iff comps hostparts (idx + 2)).mp hm
            cases hct : (comps[idx + 1]?).bind pyInt with
            | none => simp [hmem, hm, hct, htake]
            | some ct => simp [hmem, hm, hct, htake, decide_eq_true_iff]
          | false =>
            have htake :
                ¬ ((comps.drop (idx + 2)).take hostparts.length = hostparts) := by
              intro hcontra
              have := (hostCompsMatch_iff comps hostparts (idx + 2)).mpr hcontra
              rw [hm] at this
              exact Bool.noConfusion this
            simp [hmem, hm, htake]
        · simp [hmem]

/-- Witness for C6: a canonical tensorboard event file written after the
start time by host.name is recognized. -/
theorem tfevents_filter_characterization_witness :
    is_tfevents_file_created_by
      "run/events.out.tfevents.1600.host.name.123" "host.name" 1500
      = some true :=
  (tfevents_filter_characterization
      "run/events.out.tfevents.1600.host.name.123" "host.name" 1500).2.mpr
    ⟨by decide, by decide, by decide, ⟨1600, by decide, by decide⟩, by decide⟩

/-- Claim C4: `is_flapping()` holds exactly when flap protection is not
disabled through the environment, the clock is within 60 seconds of
process start, and at least 3 runs have failed; and a polled child with a
non-zero exit whose failure tips `is_flapping()` clears the running flag. -/
theorem agent_flapping_characterization (env : Option String)
    (now start failed : Nat) (s : AgentState) (c : Int) :
    (Agent.is_flapping env now start failed = true
      ↔ (env ≠ some "true" ∧ now < start + FLAPPING_MAX_SECONDS
          ∧ FLAPPING_MAX_FAILURES ≤ failed))
    ∧ (0 < c →
        Agent.is_flapping env now start (s.failed + 1) = true →
        (Agent.pollFinishedChild env now start s c).running = false) := by
  constructor
  · unfold Agent.is_flapping
    by_cases he : env = some "true"
    · simp [he]
    · by_cases ht : now < start + FLAPPING_MAX_SECONDS
      · simp [he, ht]
      · simp [he, ht]
  · intro hc hf
    unfold Agent.pollFinishedChild
    rw [if_pos hc]
    simp only [hf, if_true]

/-- Witness for C4: with flap protection enabled, 61 seconds would be too
late but second 10 is inside the window, and a third failure at exit code 1
stops the agent. -/
theorem agent_flapping_characterization_witness :
    Agent.is_flapping none 10 0 3 = true
    ∧ (Agent.pollFinishedChild none 10 0 ⟨2, 0, true⟩ 1).running = false := by
  have h := agent_flapping_characterization none 10 0 3 ⟨2, 0, true⟩ 1
  exact ⟨h.1.mpr (by decide), h.2 (by decide) (h.1.mpr (by decide))⟩

/-- After the first stop has stamped `last_sigterm_time`, each later stop
kills iff its time exceeds that stamp plus the delay, and the stamp never
changes. -/
theorem runStops_after_first (kill_delay t0 : Nat) (us : List Nat) :
    Agent.runStops kill_delay { last_sigterm_time := some t0 } us
      = ({ last_sigterm_time := some t0 },
         us.map (fun u => if t0 + kill_delay < u then some StopAction.kill
                          else none)) := by
  induction us with
  | nil => rfl
  | cons u rest ih =>
    unfold Agent.runStops Agent.command_stop
    by_cases hu : t0 + kill_delay < u
    · simp [hu, ih]
    · simp [hu, ih]

/-- Claim C5: for a run with a live child, the first stop terminates the
process and stamps `last_sigterm_time` with its time; every further stop
at a time not past the stamp plus `kill_delay` does nothing, and every
further stop strictly past it kills; in particular a kill only ever
happens after the terminate plus the delay. -/
theorem two_stage_stop (kill_delay t0 : Nat) (rest : List Nat) :
    Agent.runStops kill_delay { last_sigterm_time := none } (t0 :: rest)
      = ({ last_sigterm_time := some t0 },
         some StopAction.terminate
           :: rest.map (fun u => if t0 + kill_delay < u then some StopAction.kill
                                 else none)) := by
  unfold Agent.runStops Agent.command_stop
  simp [runStops_after_first]

/-- Witness for C5 at the default 30-second delay: stop at time 0
terminates, a second stop at time 10 is a no-op, a third at time 50
kills. -/
theorem two_stage_stop_witness :
    Agent.runStops KILL_DELAY { last_sigterm_time := none } [0, 10, 50]
      = ({ last_sigterm_time := some 0 },
         [some StopAction.terminate, none, some StopAction.kill]) := by
  rw [two_stage_stop]
  decide

/-- Claim C8 (code bug): on a scheme with no registered handler and no
default handler configured, `store_path` hits the always-true
`self._handlers is not None` guard and calls `store_path` on None
(AttributeError) instead of raising the intended
`No storage handler registered` ValueError; with a default handler
configured the call is dispatched to it, as claimed. -/
theorem multihandler_unrouted_scheme_behaviour :
    MultiHandler.store_path ["s3", "gs", "http", "https", "file"] false
        "ftp://host/file"
      = MultiStoreResult.errAttributeError
    ∧ MultiHandler.store_path ["s3", "gs", "http", "https", "file"] false
        "ftp://host/file"
      ≠ MultiStoreResult.errValueError
    ∧ MultiHandler.store_path ["s3", "gs", "http", "https", "file"] true
        "ftp://host/file"
      = MultiStoreResult.handledByDefault := by
  decide

/-- Claim C3 (code bug): walking `/d` containing `top.txt` and nested
`sub/f.txt`, the source hands the bare basenames to `os.path.getsize` and
`md5_file_b64`, which resolve against the working directory and raise
FileNotFoundError, where the spec-mandated fully-qualified walk succeeds
with each entry carrying the file's size and digest; moreover with
exactly `max_objects` files the source raises its exceeded error even
though the count does not exceed the cap, unlike the spec-mandated walk. -/
theorem localfile_store_dir_fully_qualified_bug :
    LocalFileHandler.store_path nestedDirFS "file:///d" none true none
      = Except.error "FileNotFoundError"
    ∧ localStoreWalkFilesAsSpecified nestedDirFS "file:///d"
        DEFAULT_MAX_OBJECTS 0 [("/d", "top.txt"), ("/d/sub", "f.txt")]
      = Except.ok
          [ArtifactManifestEntry.mk "top.txt" (some "file:///d/top.txt")
             "MD5TOP" (some 3) [],
           ArtifactManifestEntry.mk "f.txt" (some "file:///d/f.txt")
             "MD5F" (some 5) []]
    ∧ LocalFileHandler.store_path flatDirFS "file:///d" none true (some 2)
      = Except.error "Exceeded max_objects tracked"
    ∧ localStoreWalkFilesAsSpecified flatDirFS "file:///d" 2 0
        [("/d", "a"), ("/d", "b")]
      = Except.ok
          [ArtifactManifestEntry.mk "a" (some "file:///d/a") "MA" (some 1) [],
           ArtifactManifestEntry.mk "b" (some "file:///d/b") "MB" (some 2) []] := by
  refine ⟨?_, ?_, ?_, ?_⟩ <;> rfl

/-- Claim C10: every handler, told not to checksum, returns exactly one
entry whose digest and ref are the URI itself, with no size, the name
defaulting to the basename (local, http) or the bucket key (s3, gcs) —
for every possible filesystem, bucket and network state, i.e. without
consulting them at all. -/
theorem store_path_unchecksummed (fs : LocalFileSystem) (s3 : S3Oracle)
    (gcs : GCSOracle) (http : HTTPOracle) (uri : String)
    (name : Option String) (mo : Option Nat) :
    LocalFileHandler.store_path fs uri name false mo
      = Except.ok [ArtifactManifestEntry.mk (name.getD (pyBasename uri))
          (some uri) uri none []]
    ∧ S3Handler.store_path s3 uri name false mo
      = Except.ok [ArtifactManifestEntry.mk (name.getD (parse_uri uri).2)
          (some uri) uri none []]
    ∧ GCSHandler.store_path gcs uri name false mo
      = Except.ok [ArtifactManifestEntry.mk (name.getD (parse_uri uri).2)
          (some uri) uri none []]
    ∧ HTTPHandler.store_path http uri name false
      = Except.ok [ArtifactManifestEntry.mk (name.getD (pyBasename uri))
          (some uri) uri none []] := by
  refine ⟨?_, ?_, ?_, ?_⟩ <;> rfl

/-- Witness for C10: a dead network and empty filesystem do not matter;
the s3 key and the http basename become the names. -/
theorem store_path_unchecksummed_witness :
    S3Handler.store_path ⟨fun _ _ _ => Except.error "network down"⟩
        "s3://bucket/key" none false none
      = Except.ok [ArtifactManifestEntry.mk "key" (some "s3://bucket/key")
          "s3://bucket/key" none []]
    ∧ HTTPHandler.store_path ⟨fun _ _ => Except.error "network down"⟩
        "s3://bucket/key" none false
      = Except.ok [ArtifactManifestEntry.mk "key" (some "s3://bucket/key")
          "s3://bucket/key" none []] := by
  have h := store_path_unchecksummed
    ⟨fun _ => false, fun _ => false, fun _ => [], fun _ => none, fun _ => none⟩
    ⟨fun _ _ _ => Except.error "network down"⟩
    ⟨fun _ _ _ => Except.error "network down"⟩
    ⟨fun _ _ => Except.error "network down"⟩
    "s3://bucket/key" none none
  constructor
  · rw [h.2.1]
    rfl
  · rw [h.2.2.2]
    rfl

/-- Claim C7: once `finalize()` has run (it always leaves `_final` set),
each of `new_file`, `add_file`, `add_dir` and `add_reference` fails with
an error and returns with the manifest entry map, and hence the computed
digest, exactly as before the call. -/
theorem finalized_artifact_rejects_mutation
    (a : Artifact) (hfinal : a.final = true)
    (b : Artifact) (fsExists : String → Bool) (fs : LocalFileSystem)
    (storeRef : String → Option String → Bool → Option Nat →
      Except String (List ArtifactManifestEntry))
    (artifact_dir nm lp dp uri : String) (name : Option String)
    (checksum : Bool) (mo : Option Nat) (md5hex : String → String) :
    (Artifact.finalize b fs artifact_dir).final = true
    ∧ ((a.new_file fsExists artifact_dir nm).2.isSome = true
        ∧ (a.new_file fsExists artifact_dir nm).1.entries = a.entries
        ∧ ArtifactManifestV1.digest md5hex
            (a.new_file fsExists artifact_dir nm).1.entries
          = ArtifactManifestV1.digest md5hex a.entries)
    ∧ ((a.add_file fs lp name).2.isSome = true
        ∧ (a.add_file fs lp name).1.entries = a.entries
        ∧ ArtifactManifestV1.digest md5hex (a.add_file fs lp name).1.entries
          = ArtifactManifestV1.digest md5hex a.entries)
    ∧ ((a.add_dir fs dp name).2.isSome = true
        ∧ (a.add_dir fs dp name).1.entries = a.entries
        ∧ ArtifactManifestV1.digest md5hex (a.add_dir fs dp name).1.entries
          = ArtifactManifestV1.digest md5hex a.entries)
    ∧ ((a.add_reference storeRef uri name checksum mo).2.isSome = true
        ∧ (a.add_reference storeRef uri name checksum mo).1.entries = a.entries
        ∧ ArtifactManifestV1.digest md5hex
            (a.add_reference storeRef uri name checksum mo).1.entries
          = ArtifactManifestV1.digest md5hex a.entries) := by
  refine ⟨?_, ?_, ?_, ?_, ?_⟩
  · unfold Artifact.finalize
    split
    · assumption
    · rfl
  · simp [Artifact.new_file, hfinal]
  · simp [Artifact.add_file, hfinal]
  · simp [Artifact.add_dir, hfinal]
  · unfold Artifact.add_reference
    by_cases hs : urlScheme uri = ""
    · simp [hs]
    · simp [hs, hfinal]

/-- Witness for C7: a finalized artifact holding one entry rejects
`new_file` and `add_reference` and keeps its single entry. -/
theorem finalized_artifact_rejects_mutation_witness :
    ((Artifact.mk true false [("f", "D")]).new_file (fun _ => false)
        "/stage" "g").2.isSome = true
    ∧ ((Artifact.mk true false [("f", "D")]).add_reference
        (fun _ _ _ _ => Except.ok []) "s3://b/k" none true none).1.entries
      = [("f", "D")] := by
  have h := finalized_artifact_rejects_mutation
    (Artifact.mk true false [("f", "D")]) rfl
    (Artifact.mk false false []) (fun _ => false)
    ⟨fun _ => false, fun _ => false, fun _ => [], fun _ => none, fun _ => none⟩
    (fun _ _ _ _ => Except.ok []) "/stage" "g" "/f" "/d" "s3://b/k" none
    true none (fun s => s)
  exact ⟨h.2.1.1, h.2.2.2.2.2.1⟩

/-- A dict is nonempty after an assignment. -/
theorem dictSet_ne_nil (r : Row) (k : String) (v : Int) :
    dictSet r k v ≠ ([] : Row) := by
  unfold dictSet
  by_cases hmem : r.any (fun kv => kv.1 = k) = true
  · rw [if_pos hmem]
    intro h
    rw [List.map_eq_nil_iff] at h
    subst h
    simp at hmem
  · rw [if_neg hmem]
    simp

/-- Looking up a key right after assigning it. -/
theorem lookup_map_overwrite (r : Row) (k : String) (v : Int)
    (h : r.any (fun kv => kv.1 = k) = true) :
    List.lookup k (r.map (fun kv => if kv.1 = k then (k, v) else kv))
      = some v := by
  induction r with
  | nil => simp at h
  | cons a t ih =>
    rcases a with ⟨a1, a2⟩
    by_cases hak : a1 = k
    · rw [List.map_cons, if_pos hak]
      simp [List.lookup]
    · have ht : t.any (fun kv => kv.1 = k) = true := by
        simp only [List.any_cons] at h
        rcases Bool.or_eq_true_iff.mp h with h1 | h2
        · exact absurd (by simpa using h1) hak
        · exact h2
      have hne : (k == a1) = false := by
        simp [Ne.symm hak]
      rw [List.map_cons, if_neg hak]
      simp only [List.lookup, hne]
      exact ih ht

/-- Looking up a key appended to a dict that lacked it. -/
theorem lookup_append_single (r : Row) (k : String) (v : Int)
    (h : r.any (fun kv => kv.1 = k) = false) :
    List.lookup k (r ++ [(k, v)]) = some v := by
  induction r with
  | nil => simp [List.lookup]
  | cons a t ih =>
    rcases a with ⟨a1, a2⟩
    simp only [List.any_cons, Bool.or_eq_false_iff] at h
    have hne : (k == a1) = false := by
      have : ¬ a1 = k := by simpa using h.1
      simp [Ne.symm this]
    simp only [List.cons_append, List.lookup, hne]
    exact ih h.2

/-- Looking up the key just set. -/
theorem dictSet_lookup (r : Row) (k : String) (v : Int) :
    List.lookup k (dictSet r k v) = some v := by
  unfold dictSet
  by_cases hmem : r.any (fun kv => kv.1 = k) = true
  · rw [if_pos hmem]
    exact lookup_map_overwrite r k v hmem
  · rw [if_neg hmem]
    exact lookup_append_single r k v (Bool.not_eq_true _ ▸ Bool.of_not_eq_true hmem)

/-- Counterexample to claim C9 as stated: `add({a:1})` then two
consecutive `_flush` calls append the same in-flight dict twice and
restamp its `_step` in place, so `_get_and_reset` returns two aliases of
one row whose `_step` values read [1, 1] — not strictly increasing and
not starting at 0. -/
theorem tbhistory_steps_counterexample :
    ¬ goodRows (TBHistory.init.runOps
        [TBOp.add [("a", 1)], TBOp.flush, TBOp.flush, TBOp.getAndReset]).2 := by
  intro hgood
  exact absurd hgood.1 (by decide)

/-- Stamping the in-flight dict leaves every other reference alone. -/
theorem flushHeap_at_ne (h : TBHistory) (r : Nat) (hr : r ≠ h.dataRef) :
    ((flushHeap h)[r]?).getD ([] : Row) = h.dictAt r := by
  unfold flushHeap
  rw [List.getElem?_set_ne (fun he => hr he.symm)]
  rfl

/-- The in-flight reference designates the stamped dict afterwards. -/
theorem flushHeap_at_self (h : TBHistory) (hdr : h.dataRef < h.heap.length) :
    ((flushHeap h)[h.dataRef]?).getD ([] : Row)
      = dictSet (h.dictAt h.dataRef) "_step" (h.step : Int) := by
  unfold flushHeap
  rw [List.getElem?_set_self hdr]
  rfl

/-- `_flush` keeps the counter/pending relation; when the in-flight dict
is nonempty it becomes the next pending row, stamped with the next step. -/
theorem flush_histInvW (h : TBHistory) (base : Nat) (hinv : histInv h base) :
    histInvW h.flush base := by
  obtain ⟨hstep, ⟨hpend, hpne⟩, hdr, hrefs, hnotin⟩ := hinv
  unfold TBHistory.flush
  by_cases hd : h.dictAt h.dataRef = ([] : Row)
  · rw [if_pos hd]
    exact ⟨hstep, ⟨hpend, hpne⟩, hdr, hrefs⟩
  · rw [if_neg hd]
    refine ⟨?_, ⟨?_, ?_⟩, ?_, ?_⟩
    · show h.step + 1 = base + (h.added ++ [h.dataRef]).length
      simp only [List.length_append, List.length_cons, List.length_nil, hstep]
      omega
    · show (h.added ++ [h.dataRef]).map
          (fun r => List.lookup "_step" (((flushHeap h)[r]?).getD ([] : Row)))
        = (List.range' base (h.added ++ [h.dataRef]).length).map
            (fun i => some ((i : Nat) : Int))
      have hlen : (h.added ++ [h.dataRef]).length = h.added.length + 1 := by
        simp
      rw [hlen, List.range'_concat, List.map_append, List.map_append]
      congr 1
      · calc (h.added.map
              (fun r => List.lookup "_step" (((flushHeap h)[r]?).getD ([] : Row))))
            = h.added.map (fun r => List.lookup "_step" (h.dictAt r)) := by
              apply List.map_congr_left
              intro r hr
              rw [flushHeap_at_ne h r (fun he => hnotin (he ▸ hr))]
          _ = _ := hpend
      · rw [List.map_cons, List.map_nil, flushHeap_at_self h hdr, dictSet_lookup]
        simp [hstep]
    · show ∀ r ∈ h.added ++ [h.dataRef],
          ((flushHeap h)[r]?).getD ([] : Row) ≠ ([] : Row)
      intro r hr
      rcases List.mem_append.mp hr with hold | hnew
      · rw [flushHeap_at_ne h r (fun he => hnotin (he ▸ hold))]
        exact hpne r hold
      · have : r = h.dataRef := by simpa using hnew
        subst this
        rw [flushHeap_at_self h hdr]
        exact dictSet_ne_nil _ _ _
    · show h.dataRef < (flushHeap h).length
      unfold flushHeap
      rw [List.length_set]
      exact hdr
    · show ∀ r ∈ h.added ++ [h.dataRef], r < (flushHeap h).length
      unfold flushHeap
      rw [List.length_set]
      intro r hr
      rcases List.mem_append.mp hr with hold | hnew
      · exact hrefs r hold
      · have : r = h.dataRef := by simpa using hnew
        subst this
        exact hdr

/-- `add` preserves the full invariant: the possible internal flush parks
the old in-flight dict, and the fresh allocation restores the separation
between the in-flight reference and the pending ones. -/
theorem add_histInv (h : TBHistory) (base : Nat) (d : Row)
    (hinv : histInv h base) : histInv (h.add d) base := by
  obtain ⟨hstep, ⟨hpend, hpne⟩, hdr, hrefs⟩ := flush_histInvW h base hinv
  unfold TBHistory.add
  refine ⟨hstep, ⟨?_, ?_⟩, ?_, ?_, ?_⟩
  · show h.flush.added.map
        (fun r => (((h.flush.heap ++ [dictUpdate [] d])[r]?).getD ([] : Row)).lookup "_step")
      = _
    calc h.flush.added.map
          (fun r => (((h.flush.heap ++ [dictUpdate [] d])[r]?).getD ([] : Row)).lookup "_step")
        = h.flush.added.map (fun r => (h.flush.dictAt r).lookup "_step") := by
          apply List.map_congr_left
          intro r hr
          rw [List.getElem?_append_left (hrefs r hr)]
          rfl
      _ = _ := hpend
  · intro r hr
    show (((h.flush.heap ++ [dictUpdate [] d])[r]?).getD ([] : Row)) ≠ ([] : Row)
    rw [List.getElem?_append_left (hrefs r hr)]
    exact hpne r hr
  · show h.flush.heap.length < (h.flush.heap ++ [dictUpdate [] d]).length
    simp
  · intro r hr
    show r < (h.flush.heap ++ [dictUpdate [] d]).length
    simp only [List.length_append, List.length_cons, List.length_nil]
    exact Nat.lt_succ_of_lt (hrefs r hr)
  · intro hmem
    exact absurd (hrefs _ hmem) (Nat.lt_irrefl _)

/-- `_get_and_reset` moves the pending rows to the output: it returns
exactly the rows with the next consecutive steps, all nonempty, and the
state invariant restarts at the advanced base. -/
theorem get_histInv (h : TBHistory) (base : Nat) (hinv : histInv h base) :
    histInv h.getAndReset.1 (base + h.added.length)
    ∧ h.getAndReset.2.map (fun r => List.lookup "_step" r)
        = (List.range' base h.added.length).map (fun i => some ((i : Nat) : Int))
    ∧ ∀ r ∈ h.getAndReset.2, r ≠ ([] : Row) := by
  obtain ⟨hstep, ⟨hpend, hpne⟩, hdr, hrefs, hnotin⟩ := hinv
  unfold TBHistory.getAndReset
  refine ⟨⟨?_, ⟨?_, ?_⟩, ?_, ?_, ?_⟩, ?_, ?_⟩
  · simpa using hstep
  · simp [pendingSteps]
  · simp
  · exact hdr
  · simp
  · simp
  · show (h.added.map (fun r => h.dictAt r)).map (fun r => List.lookup "_step" r) = _
    rw [List.map_map]
    exact hpend
  · intro r hr
    obtain ⟨x, hx, hxr⟩ := List.mem_map.mp hr
    rw [← hxr]
    exact hpne x hx

/-- Running a flush-free sequence of operations from an invariant state:
the output rows carry consecutive steps from `base` and the invariant
resumes past them. -/
theorem runOps_noflush (ops : List TBOp)
    (hops : ∀ op ∈ ops, op ≠ TBOp.flush) :
    ∀ (h : TBHistory) (base : Nat), histInv h base →
      histInv (TBHistory.runOps h ops).1
          (base + (TBHistory.runOps h ops).2.length)
      ∧ (TBHistory.runOps h ops).2.map (fun r => List.lookup "_step" r)
          = (List.range' base (TBHistory.runOps h ops).2.length).map
              (fun i => some ((i : Nat) : Int))
      ∧ ∀ r ∈ (TBHistory.runOps h ops).2, r ≠ ([] : Row) := by
  induction ops with
  | nil =>
    intro h base hinv
    exact ⟨by simpa using hinv, by simp [TBHistory.runOps], by simp [TBHistory.runOps]⟩
  | cons op rest ih =>
    intro h base hinv
    have hrest : ∀ op ∈ rest, op ≠ TBOp.flush :=
      fun o ho => hops o (List.mem_cons_of_mem _ ho)
    cases op with
    | flush => exact absurd rfl (hops TBOp.flush (List.mem_cons_self _ _))
    | add d =>
      have := ih hrest (h.add d) base (add_histInv h base d hinv)
      simpa [TBHistory.runOps] using this
    | getAndReset =>
      obtain ⟨hinv2, hrows, hrne⟩ := get_histInv h base hinv
      obtain ⟨hinv3, hmap3, hne3⟩ :=
        ih hrest h.getAndReset.1 (base + h.added.length) hinv2
      have hlen2 : h.getAndReset.2.length = h.added.length := by
        simp [TBHistory.getAndReset]
      have hrun : TBHistory.runOps h (TBOp.getAndReset :: rest)
          = ((TBHistory.runOps h.getAndReset.1 rest).1,
             h.getAndReset.2 ++ (TBHistory.runOps h.getAndReset.1 rest).2) := rfl
      rw [hrun]
      dsimp only
      refine ⟨?_, ?_, ?_⟩
      · have harith :
            base + (h.getAndReset.2 ++ (TBHistory.runOps h.getAndReset.1 rest).2).length
              = base + h.added.length
                  + (TBHistory.runOps h.getAndReset.1 rest).2.length := by
          rw [List.length_append, hlen2]
          omega
        rw [harith]
        exact hinv3
      · rw [List.map_append, hrows, hmap3, List.length_append, hlen2]
        have := List.range'_append base h.added.length
          (TBHistory.runOps h.getAndReset.1 rest).2.length 1
        rw [one_mul] at this
        rw [← List.map_append, this]
        have hcomm : (TBHistory.runOps h.getAndReset.1 rest).2.length + h.added.length
            = h.added.length + (TBHistory.runOps h.getAndReset.1 rest).2.length := by
          omega
        rw [hcomm]
      · intro r hr
        rcases List.mem_append.mp hr with h1 | h2
        · exact hrne r h1
        · exact hne3 r h2

/-- Running only `_get_and_reset` calls: the pending rows drain once, in
order, and nothing else is emitted. -/
theorem runOps_getsOnly (ops : List TBOp)
    (hops : ∀ op ∈ ops, op = TBOp.getAndReset) :
    ∀ (h : TBHistory) (base : Nat), pendingSteps h base →
      (TBHistory.runOps h ops).2.map (fun r => List.lookup "_step" r)
          = (List.range' base (TBHistory.runOps h ops).2.length).map
              (fun i => some ((i : Nat) : Int))
      ∧ ∀ r ∈ (TBHistory.runOps h ops).2, r ≠ ([] : Row) := by
  induction ops with
  | nil =>
    intro h base hpend
    exact ⟨by simp [TBHistory.runOps], by simp [TBHistory.runOps]⟩
  | cons op rest ih =>
    intro h base hpend
    have hop := hops op (List.mem_cons_self _ _)
    subst hop
    have hrest : ∀ op ∈ rest, op = TBOp.getAndReset :=
      fun o ho => hops o (List.mem_cons_of_mem _ ho)
    obtain ⟨hpmap, hpne⟩ := hpend
    have hrows : h.getAndReset.2.map (fun r => List.lookup "_step" r)
        = (List.range' base h.added.length).map (fun i => some ((i : Nat) : Int)) := by
      show (h.added.map (fun r => h.dictAt r)).map (fun r => List.lookup "_step" r) = _
      rw [List.map_map]
      exact hpmap
    have hpend2 : pendingSteps h.getAndReset.1 (base + h.added.length) := by
      constructor
      · simp [TBHistory.getAndReset, pendingSteps]
      · simp [TBHistory.getAndReset]
    obtain ⟨hmap3, hne3⟩ := ih hrest h.getAndReset.1 (base + h.added.length) hpend2
    have hlen2 : h.getAndReset.2.length = h.added.length := by
      simp [TBHistory.getAndReset]
    have hrun : TBHistory.runOps h (TBOp.getAndReset :: rest)
        = ((TBHistory.runOps h.getAndReset.1 rest).1,
           h.getAndReset.2 ++ (TBHistory.runOps h.getAndReset.1 rest).2) := rfl
    rw [hrun]
    dsimp only
    constructor
    · rw [List.map_append, hrows, hmap3, List.length_append, hlen2]
      have := List.range'_append base h.added.length
        (TBHistory.runOps h.getAndReset.1 rest).2.length 1
      rw [one_mul] at this
      rw [← List.map_append, this]
      have hcomm : (TBHistory.runOps h.getAndReset.1 rest).2.length + h.added.length
          = h.added.length + (TBHistory.runOps h.getAndReset.1 rest).2.length := by
        omega
      rw [hcomm]
    · intro r hr
      rcases List.mem_append.mp hr with h1 | h2
      · obtain ⟨x, hx, hxr⟩ := List.mem_map.mp h1
        rw [← hxr]
        exact hpne x hx
      · exact hne3 r h2

/-- `runOps` distributes over concatenation of operation lists. -/
theorem runOps_append (xs ys : List TBOp) : ∀ h : TBHistory,
    TBHistory.runOps h (xs ++ ys)
      = ((TBHistory.runOps (TBHistory.runOps h xs).1 ys).1,
         (TBHistory.runOps h xs).2
           ++ (TBHistory.runOps (TBHistory.runOps h xs).1 ys).2) := by
  induction xs with
  | nil => intro h; simp [TBHistory.runOps]
  | cons op rest ih =>
    intro h
    cases op with
    | add d => simpa [TBHistory.runOps] using ih (h.add d)
    | flush => simpa [TBHistory.runOps] using ih h.flush
    | getAndReset => simp [TBHistory.runOps, ih h.getAndReset.1]

/-- A fresh history satisfies the invariant at base 0. -/
theorem init_histInv : histInv TBHistory.init 0 := by
  refine ⟨rfl, ⟨rfl, by simp [TBHistory.init]⟩, by decide, by simp [TBHistory.init], by simp [TBHistory.init]⟩

/-- Claim C9, amended: for every operation sequence in which every
explicit `_flush` comes after all `add`s — at most one final `_flush`
followed only by `_get_and_reset`s, the consumer's usage — the
concatenation of all rows `_get_and_reset` returns carries `_step` values
strictly increasing and contiguous from 0, and every returned row is
nonempty.  (As stated over all sequences the claim fails: see the
counterexample, where `_flush` re-appends the still-referenced in-flight
dict.) -/
theorem tbhistory_steps_amended (l1 l2 : List TBOp)
    (h1 : ∀ op ∈ l1, op ≠ TBOp.flush)
    (h2 : l2 = [] ∨ ∃ gets, l2 = TBOp.flush :: gets
          ∧ ∀ op ∈ gets, op = TBOp.getAndReset) :
    goodRows (TBHistory.init.runOps (l1 ++ l2)).2 := by
  rw [runOps_append]
  obtain ⟨hinv1, hmap1, hne1⟩ := runOps_noflush l1 h1 TBHistory.init 0 init_histInv
  rcases h2 with h2 | ⟨gets, hl2, hgets⟩
  · subst h2
    constructor
    · show ((TBHistory.runOps TBHistory.init l1).2 ++ (TBHistory.runOps _ []).2).map _ = _
      have hnil : (TBHistory.runOps (TBHistory.runOps TBHistory.init l1).1 []).2
          = [] := rfl
      rw [hnil, List.append_nil, hmap1]
      rw [List.range_eq_range']
    · intro r hr
      have hnil : (TBHistory.runOps (TBHistory.runOps TBHistory.init l1).1 []).2
          = [] := rfl
      rw [hnil, List.append_nil] at hr
      exact hne1 r hr
  · subst hl2
    have hw := flush_histInvW _ _ hinv1
    have hrunflush : TBHistory.runOps (TBHistory.runOps TBHistory.init l1).1
        (TBOp.flush :: gets)
        = TBHistory.runOps (TBHistory.runOps TBHistory.init l1).1.flush gets := rfl
    rw [hrunflush]
    obtain ⟨hmap2, hne2⟩ := runOps_getsOnly gets hgets
      (TBHistory.runOps TBHistory.init l1).1.flush
      (0 + (TBHistory.runOps TBHistory.init l1).2.length) hw.2.1
    constructor
    · rw [List.map_append, hmap1, hmap2, ← List.map_append]
      have hr := List.range'_append 0 (TBHistory.runOps TBHistory.init l1).2.length
        (TBHistory.runOps (TBHistory.runOps TBHistory.init l1).1.flush gets).2.length 1
      rw [one_mul] at hr
      rw [hr, List.length_append, List.range_eq_range', Nat.add_comm
        (TBHistory.runOps (TBHistory.runOps TBHistory.init l1).1.flush gets).2.length
        (TBHistory.runOps TBHistory.init l1).2.length]
    · intro r hr
      rcases List.mem_append.mp hr with ha | hb
      · exact hne1 r ha
      · exact hne2 r hb

/-- Witness for C9 (amended): the consumer pattern add, get, add, final
flush, get emits rows stepped 0 then 1, both nonempty. -/
theorem tbhistory_steps_amended_witness :
    goodRows (TBHistory.init.runOps
      [TBOp.add [("a", 1)], TBOp.getAndReset, TBOp.add [("b", 2)],
       TBOp.flush, TBOp.getAndReset]).2 := by
  have h := tbhistory_steps_amended
    [TBOp.add [("a", 1)], TBOp.getAndReset, TBOp.add [("b", 2)]]
    [TBOp.flush, TBOp.getAndReset]
    (by decide)
    (Or.inr ⟨[TBOp.getAndReset], rfl, by decide⟩)
  simpa using h
